import Mathlib

/-!
Verification of the business-ops console (`src/app.py`).

The Python source is a Streamlit application over a Google-Sheets store.
We shallowly embed the logic-bearing parts:

* the row types of the four tables (Inventory, Sales, Expenses, Nib Orders),
  with monetary amounts and stock modelled as rationals (pandas coerces these
  columns to floats via `pd.to_numeric(...).fillna(...)`);
* `DbManager.register_sale` and `DbManager.log_expense`, with the effects made
  explicit: the result records the final (mutated) inventory snapshot and the
  whole-table store writes the method performs; an `Option` parameter models
  the outcome of the `conn.read` call that the method wraps in `try/except`
  (`none` = the read raised);
* the UI-level exchange-rate selection, search filter, nib-order volume
  counters and per-currency financial aggregation from `main()`.

User-facing message strings that interpolate floats are abstracted into the
structured `SaleMsg` type (number formatting is not modelled); everything else
follows the source line by line.
-/

/-- A row of the Inventory table, after `load_inventory` has coerced
`Stock`, `Purchase Price` and `Target Price` to numbers. -/
structure InvRow where
  date : String
  brand : String
  model : String
  color : String
  details : String
  purchasePrice : ℚ
  targetPrice : ℚ
  stock : ℚ
  supplier : String
  currency : String
  deriving DecidableEq, Repr

/-- A row of the Sales table (columns written by `register_sale`). -/
structure SaleRow where
  date : String
  itemSold : String
  quantity : ℚ
  sellingPrice : ℚ
  currency : String
  costPrice : ℚ
  exchangeRate : ℚ
  deriving DecidableEq, Repr

/-- A row of the Expenses table (columns written by `log_expense`). -/
structure ExpRow where
  date : String
  category : String
  amount : ℚ
  currency : String
  notes : String
  deriving DecidableEq, Repr

/-- A row of the Nib Orders table, after `load_nib_orders` has coerced
`Quantity` and `Price` to numbers. -/
structure NibRow where
  date : String
  name : String
  quantity : ℚ
  status : String
  price : ℚ
  currency : String
  deriving DecidableEq, Repr

/-- The user-facing message returned by `register_sale`, abstracted
structurally: `outOfStock` stands for the literal "Out of Stock!" string and
`sold` for the f-string interpolating item name, price and currency. -/
inductive SaleMsg where
  | outOfStock : SaleMsg
  | sold (itemName : String) (price : ℚ) (currency : String) : SaleMsg
  deriving DecidableEq, Repr

/-- What a call to `DbManager.register_sale` leaves behind: the returned
success flag and message, the caller's inventory dataframe after the call
(the Python method mutates it in place via `inventory_df.loc[row_index,
"Stock"] = ...`), and the whole-table store writes the method itself issued
through `update_sheet` (`none` = that table was not written). -/
structure RegisterSaleResult where
  ok : Bool
  msg : SaleMsg
  inventory : List InvRow
  inventoryWrite : Option (List InvRow)
  salesWrite : Option (List SaleRow)
  deriving DecidableEq, Repr

/-- `DbManager.register_sale` (src/app.py lines 65-91).

`today` stands for `str(date.today())`; `salesRead` is the outcome of
`self.conn.read(worksheet="Sales")` (`none` = the read raised, caught by the
bare `except:` which substitutes an empty dataframe).  Returns `none` when
`row_index` is not a valid row label (`.loc` raises in Python). -/
def register_sale (today : String) (salesRead : Option (List SaleRow))
    (inventory_df : List InvRow) (row_index : ℕ)
    (final_selling_price : ℚ) (sales_currency : String) (exchange_rate : ℚ) :
    Option RegisterSaleResult :=
  match inventory_df[row_index]? with
  | none => none
  | some row =>
    let original_cost := row.purchasePrice
    let normalized_cost := original_cost * exchange_rate
    let item_name := row.brand ++ " " ++ row.model
    let current_stock := row.stock
    if current_stock < 1 then
      some ⟨false, SaleMsg.outOfStock, inventory_df, none, none⟩
    else
      let updated_inv := inventory_df.set row_index { row with stock := current_stock - 1 }
      let sales_data := match salesRead with
        | some s => s
        | none => []
      let new_sale : SaleRow :=
        ⟨today, item_name, 1, final_selling_price, sales_currency,
          normalized_cost, exchange_rate⟩
      let updated_sales := sales_data ++ [new_sale]
      some ⟨true, SaleMsg.sold item_name final_selling_price sales_currency,
        updated_inv, some updated_inv, some updated_sales⟩

/-- `DbManager.log_expense` (src/app.py lines 93-101): returns the `True`
flag together with the Expenses table the method writes back.  `expRead` is
the outcome of `self.conn.read(worksheet="Expenses")` (`none` = the read
raised, caught by the bare `except:`). -/
def log_expense (today : String) (expRead : Option (List ExpRow))
    (category : String) (amount : ℚ) (currency : String) (notes : String) :
    Bool × List ExpRow :=
  let exp_data := match expRead with
    | some e => e
    | none => []
  let new_expense : ExpRow := ⟨today, category, amount, currency, notes⟩
  (true, exp_data ++ [new_expense])

/-- The exchange rate the sell tab passes to `register_sale`
(src/app.py lines 157-168): initialised to `1.0` and replaced by the
user-entered rate only when the sale currency differs from the item's
purchase currency. -/
def ui_exchange_rate (item_currency sales_curr : String) (entered_rate : ℚ) : ℚ :=
  if sales_curr ≠ item_currency then entered_rate else 1

/-- The margin shown by the sell tab (src/app.py lines 170-174):
`final_price - cost` where `cost` is the (possibly normalized) cost. -/
def ui_margin (final_price cost : ℚ) : ℚ := final_price - cost

/-- ASCII lowercasing of one character, as Python's `str.lower` acts on the
ASCII letters appearing in the data. -/
def lowerChar (c : Char) : Char :=
  if c.isUpper then Char.ofNat (c.toNat + 32) else c

/-- Models `str.lower()`: lowercase every character of the string. -/
def lowerStr (s : String) : String := ⟨s.data.map lowerChar⟩

/-- Is the first character list a prefix of the second? -/
def charsLeadWith : List Char → List Char → Bool
  | [], _ => true
  | _ :: _, [] => false
  | c :: cs, d :: ds => c == d && charsLeadWith cs ds

/-- Does `pat` occur as a contiguous run inside the character list? -/
def listContainsSub (pat : List Char) : List Char → Bool
  | [] => charsLeadWith pat []
  | c :: rest => charsLeadWith pat (c :: rest) || listContainsSub pat rest

/-- Substring test on strings: models Python's `str.contains` / `in` for
plain (non-regex) search terms. -/
def strContainsSub (s pat : String) : Bool :=
  listContainsSub pat.data s.data

/-- The sell tab's item search (src/app.py lines 124-134): an empty search
box (falsy string) keeps the whole inventory; otherwise rows are kept when
the lowercased `Brand` or `Model` field contains the lowercased term. -/
def filterItems (inventory : List InvRow) (search : String) : List InvRow :=
  if search = "" then inventory
  else
    let term := lowerStr search
    inventory.filter fun row =>
      strContainsSub (lowerStr row.brand) term ||
      strContainsSub (lowerStr row.model) term

/-- `nib_orders[nib_orders["Status"] == "Completed"]` (src/app.py line 314). -/
def completed_nibs (nib_orders : List NibRow) : List NibRow :=
  nib_orders.filter fun n => n.status == "Completed"

/-- The currency set the finance tab iterates over (src/app.py lines
316-317): the union of the `Currency` columns of Sales, Expenses and the
completed nib orders, with the empty string discarded. -/
def all_currencies (sales_df : List SaleRow) (expense_df : List ExpRow)
    (nib_orders : List NibRow) : Finset String :=
  (((sales_df.map SaleRow.currency).toFinset ∪
      (expense_df.map ExpRow.currency).toFinset) ∪
      ((completed_nibs nib_orders).map NibRow.currency).toFinset).erase ""

/-- The per-currency figures the finance tab computes and displays. -/
structure CurrencySummary where
  revenue : ℚ
  cogs : ℚ
  operatingExpense : ℚ
  netProfit : ℚ
  deriving DecidableEq, Repr

/-- The body of the finance tab's per-currency loop (src/app.py lines
323-333): product revenue, completed-service revenue, cost of goods sold,
operating expense, and net profit for one currency. -/
def currency_summary (sales_df : List SaleRow) (expense_df : List ExpRow)
    (nib_orders : List NibRow) (currency : String) : CurrencySummary :=
  let product_rev :=
    ((sales_df.filter fun s => s.currency == currency).map SaleRow.sellingPrice).sum
  let service_rev :=
    (((completed_nibs nib_orders).filter fun n => n.currency == currency).map
      NibRow.price).sum
  let total_rev := product_rev + service_rev
  let cogs :=
    ((sales_df.filter fun s => s.currency == currency).map SaleRow.costPrice).sum
  let exp :=
    ((expense_df.filter fun e => e.currency == currency).map ExpRow.amount).sum
  let net_profit := total_rev - cogs - exp
  ⟨total_rev, cogs, exp, net_profit⟩

/-- The finance tab's nib-order 7-day window (src/app.py line 302):
`nib_orders[nib_orders["DateObj"] >= today - timedelta(days=7)]`.
`parseDate` models `pd.to_datetime(..., errors="coerce")` (a date as a day
number; `none` = NaT, and any comparison against NaT is false), `today` the
day number of `date.today()`. -/
def orders_7d (parseDate : String → Option ℤ) (today : ℤ)
    (nib_orders : List NibRow) : List NibRow :=
  nib_orders.filter fun n =>
    match parseDate n.date with
    | some d => today - 7 ≤ d
    | none => false

/-- The finance tab's nib-order 30-day window (src/app.py line 303). -/
def orders_30d (parseDate : String → Option ℤ) (today : ℤ)
    (nib_orders : List NibRow) : List NibRow :=
  nib_orders.filter fun n =>
    match parseDate n.date with
    | some d => today - 30 ≤ d
    | none => false

/-- The finance tab's pending-queue counter (src/app.py line 308):
`len(nib_orders[nib_orders["Status"] == "In Progress"])`. -/
def pending_queue_count (nib_orders : List NibRow) : ℕ :=
  (nib_orders.filter fun n => n.status == "In Progress").length

/-- The method names defined on `DbManager` (src/app.py lines 26-101),
in source order. -/
def dbManagerMethods : List String :=
  ["__init__", "load_sheet", "load_inventory", "load_nib_orders",
   "update_sheet", "add_nib_order", "update_nib_order", "register_sale",
   "log_expense"]

/-- A Python runtime error surfaced to the UI layer. -/
inductive PyError where
  | attributeError (attr : String) : PyError
  deriving DecidableEq, Repr

/-- Python attribute lookup on a `DbManager` instance: a method is found
exactly when the class body defines it. -/
def dbGetMethod (attr : String) : Option String :=
  if dbManagerMethods.contains attr then some attr else none

/-- The add-inventory form handler (src/app.py lines 274-282): on submit it
evaluates `db.add_inventory_item(inventory, new_item)`.  Attribute lookup
happens before any call, so when the class defines no such method the handler
raises `AttributeError` and performs no store write; the success branch is
unreachable (the class body defines no `add_inventory_item`, so no body
exists to model) and is recorded as issuing no writes. -/
def add_inv_form_submit (inventory : List InvRow) (_new_item : InvRow) :
    Except PyError (List InvRow) :=
  match dbGetMethod "add_inventory_item" with
  | none => Except.error (PyError.attributeError "add_inventory_item")
  | some _ => Except.ok inventory

/-! ## Concrete demonstration data used by the claim instances -/

/-- A demonstration inventory row used by the concrete parts of the claims:
bought for 50 €, one unit in stock. -/
def demoItem : InvRow :=
  ⟨"2026-01-01", "Pelikan", "M800", "Green", "", 50, 1800, 1, "ACME", "€"⟩

/-- A demonstration inventory row with zero stock. -/
def demoItemEmpty : InvRow :=
  ⟨"2026-01-02", "Lamy", "2000", "Black", "", 120, 250, 0, "ACME", "$"⟩

/-- A demonstration inventory row priced in dollars. -/
def demoItemDollar : InvRow :=
  ⟨"2026-01-04", "TWSBI", "Eco", "Clear", "", 20, 40, 5, "ACME", "$"⟩

/-- An inventory row whose colour field (but neither brand nor model)
contains the search term "blue". -/
def colorOnlyItem : InvRow :=
  ⟨"2026-01-05", "Pilot", "Custom 823", "Deep Blue", "", 100, 200, 3,
    "ACME", "$"⟩

/-- A date parser for the witness: recognises a single concrete day. -/
def demoParse : String → Option ℤ :=
  fun s => if s = "2026-01-05" then some 0 else none

/-- A service order dated at the recognised day. -/
def demoNib : NibRow := ⟨"2026-01-05", "Alice", 1, "In Progress", 10, "$"⟩

/-- The sale row of the worked example in the spec: price 100 $, cost 60. -/
def demoSale : SaleRow := ⟨"2026-01-06", "Pilot 74", 1, 100, "$", 60, 1⟩

/-- The expense row of the worked example in the spec: amount 20 $. -/
def demoExp : ExpRow := ⟨"2026-01-06", "Rent", 20, "$", ""⟩

/-! ## Helper lemmas about `register_sale` -/

/-- Evaluation of `register_sale` on a valid row with sufficient stock:
it mutates the row's stock, writes the Inventory table, and writes the Sales
table extended by the new sale record. -/
lemma register_sale_of_stock (today : String) (salesRead : Option (List SaleRow))
    (inv : List InvRow) (i : ℕ) (row : InvRow) (p : ℚ) (c : String) (r : ℚ)
    (hrow : inv[i]? = some row) (hstock : ¬ row.stock < 1) :
    register_sale today salesRead inv i p c r =
      some ⟨true, SaleMsg.sold (row.brand ++ " " ++ row.model) p c,
        inv.set i { row with stock := row.stock - 1 },
        some (inv.set i { row with stock := row.stock - 1 }),
        some (salesRead.getD [] ++
          [⟨today, row.brand ++ " " ++ row.model, 1, p, c,
            row.purchasePrice * r, r⟩])⟩ := by
  unfold register_sale
  rw [hrow]
  simp only [hstock, if_neg, if_false]
  cases salesRead <;> rfl

/-- Evaluation of `register_sale` on a valid row with stock below 1:
it fails with the out-of-stock message, leaves the inventory as given and
writes nothing. -/
lemma register_sale_of_no_stock (today : String) (salesRead : Option (List SaleRow))
    (inv : List InvRow) (i : ℕ) (row : InvRow) (p : ℚ) (c : String) (r : ℚ)
    (hrow : inv[i]? = some row) (hstock : row.stock < 1) :
    register_sale today salesRead inv i p c r =
      some ⟨false, SaleMsg.outOfStock, inv, none, none⟩ := by
  unfold register_sale
  rw [hrow]
  simp [hstock]

/-! ## Claim theorems -/

/-- Claim C1: for every inventory row with purchase cost `c` and every
exchange rate `r`, a successful `register_sale` records `c * r` as the
sale's cost price; concretely, purchase cost 50 at rate 35 gives normalized
cost 1750 and selling at 2000 gives margin 250. -/
theorem registerSale_normalized_cost :
    (∀ (today : String) (salesRead : Option (List SaleRow)) (inv : List InvRow)
        (i : ℕ) (row : InvRow) (p : ℚ) (c : String) (r : ℚ),
        inv[i]? = some row → 1 ≤ row.stock →
        ∃ res : RegisterSaleResult,
          register_sale today salesRead inv i p c r = some res ∧ res.ok = true ∧
          ∃ (prev : List SaleRow) (rec : SaleRow),
            res.salesWrite = some (prev ++ [rec]) ∧
            rec.costPrice = row.purchasePrice * r) ∧
    (register_sale "2026-01-01" (some []) [demoItem] 0 2000 "₺" 35 =
      some ⟨true, SaleMsg.sold "Pelikan M800" 2000 "₺",
        [{ demoItem with stock := 0 }], some [{ demoItem with stock := 0 }],
        some [⟨"2026-01-01", "Pelikan M800", 1, 2000, "₺", 1750, 35⟩]⟩ ∧
     ui_margin 2000 1750 = 250) := by
  constructor
  · intro today salesRead inv i row p c r hrow hstock
    refine ⟨_, register_sale_of_stock today salesRead inv i row p c r hrow
      (not_lt.mpr hstock), rfl, salesRead.getD [], _, rfl, rfl⟩
  · constructor
    · have h := register_sale_of_stock "2026-01-01" (some []) [demoItem] 0
        demoItem 2000 "₺" 35 rfl (by norm_num [demoItem])
      rw [h]
      norm_num [demoItem]
      rfl
    · norm_num [ui_margin]

/-- Witness for C1 at a concrete input. -/
theorem registerSale_normalized_cost_witness :
    ∃ res : RegisterSaleResult,
      register_sale "2026-01-01" (some []) [demoItem] 0 2000 "₺" 35 = some res ∧
      res.ok = true ∧
      ∃ (prev : List SaleRow) (rec : SaleRow),
        res.salesWrite = some (prev ++ [rec]) ∧
        rec.costPrice = demoItem.purchasePrice * 35 :=
  registerSale_normalized_cost.1 "2026-01-01" (some []) [demoItem] 0 demoItem
    2000 "₺" 35 rfl (by norm_num [demoItem])

/-- Claim C2: `register_sale` preserves nonnegativity of every stock value
in the snapshot it leaves behind, and when the selected row's stock is below
1 it fails with the out-of-stock error, leaves the snapshot unchanged and
issues no store write. -/
theorem registerSale_no_negative_stock :
    ∀ (today : String) (salesRead : Option (List SaleRow)) (inv : List InvRow)
      (i : ℕ) (row : InvRow) (p : ℚ) (c : String) (r : ℚ),
      inv[i]? = some row →
      ((∀ q ∈ inv, 0 ≤ q.stock) →
        ∀ res : RegisterSaleResult,
          register_sale today salesRead inv i p c r = some res →
          ∀ q ∈ res.inventory, 0 ≤ q.stock) ∧
      (row.stock < 1 →
        register_sale today salesRead inv i p c r =
          some ⟨false, SaleMsg.outOfStock, inv, none, none⟩) := by
  intro today salesRead inv i row p c r hrow
  constructor
  · intro hinv res hres q hq
    by_cases hs : row.stock < 1
    · rw [register_sale_of_no_stock today salesRead inv i row p c r hrow hs]
        at hres
      obtain rfl := Option.some_inj.mp hres
      exact hinv q hq
    · rw [register_sale_of_stock today salesRead inv i row p c r hrow hs]
        at hres
      obtain rfl := Option.some_inj.mp hres
      rcases List.mem_or_eq_of_mem_set hq with h | h
      · exact hinv q h
      · subst h
        have h1 : (1 : ℚ) ≤ row.stock := not_lt.mp hs
        show (0 : ℚ) ≤ row.stock - 1
        linarith
  · intro hs
    exact register_sale_of_no_stock today salesRead inv i row p c r hrow hs

/-- Witness for C2 at a concrete zero-stock input. -/
theorem registerSale_no_negative_stock_witness :
    register_sale "2026-01-02" (some []) [demoItemEmpty] 0 300 "$" 1 =
      some ⟨false, SaleMsg.outOfStock, [demoItemEmpty], none, none⟩ :=
  (registerSale_no_negative_stock "2026-01-02" (some []) [demoItemEmpty] 0
    demoItemEmpty 300 "$" 1 rfl).2 (by norm_num [demoItemEmpty])

/-- Claim C5: when the sale currency equals the item's purchase currency the
sell tab passes exchange rate 1 to `register_sale`, so the recorded cost
price equals the purchase cost and the recorded rate is 1. -/
theorem registerSale_same_currency_identity :
    ∀ (today : String) (salesRead : Option (List SaleRow)) (inv : List InvRow)
      (i : ℕ) (row : InvRow) (p : ℚ) (r : ℚ),
      0 < r → inv[i]? = some row → 1 ≤ row.stock →
      ui_exchange_rate row.currency row.currency r = 1 ∧
      ∃ res : RegisterSaleResult,
        register_sale today salesRead inv i p row.currency
          (ui_exchange_rate row.currency row.currency r) = some res ∧
        ∃ (prev : List SaleRow) (rec : SaleRow),
          res.salesWrite = some (prev ++ [rec]) ∧
          rec.costPrice = row.purchasePrice ∧ rec.exchangeRate = 1 := by
  intro today salesRead inv i row p r hr hrow hstock
  have hrate : ui_exchange_rate row.currency row.currency r = 1 := by
    simp [ui_exchange_rate]
  refine ⟨hrate, ?_⟩
  rw [hrate]
  refine ⟨_, register_sale_of_stock today salesRead inv i row p row.currency 1
    hrow (not_lt.mpr hstock), salesRead.getD [], _, rfl, ?_, rfl⟩
  exact mul_one _

/-- Witness for C5 at a concrete input. -/
theorem registerSale_same_currency_identity_witness :
    ui_exchange_rate demoItem.currency demoItem.currency 35 = 1 ∧
    ∃ res : RegisterSaleResult,
      register_sale "2026-01-01" (some []) [demoItem] 0 1800 demoItem.currency
        (ui_exchange_rate demoItem.currency demoItem.currency 35) = some res ∧
      ∃ (prev : List SaleRow) (rec : SaleRow),
        res.salesWrite = some (prev ++ [rec]) ∧
        rec.costPrice = demoItem.purchasePrice ∧ rec.exchangeRate = 1 :=
  registerSale_same_currency_identity "2026-01-01" (some []) [demoItem] 0
    demoItem 1800 35 (by norm_num) rfl (by norm_num [demoItem])

/-- Counterexample to claim C6 as stated: at a concrete successful sale,
`register_sale` itself issues the Inventory and Sales store writes, so it is
false that the method persists nothing and leaves writing to the caller. -/
theorem registerSale_persists_itself_counterexample :
    ¬ (∀ res : RegisterSaleResult,
        register_sale "2026-01-03" (some []) [demoItem] 0 2000 "€" 1 =
          some res →
        res.inventoryWrite = none ∧ res.salesWrite = none) := by
  intro hclaim
  have h := register_sale_of_stock "2026-01-03" (some []) [demoItem] 0 demoItem
    2000 "€" 1 rfl (by norm_num [demoItem])
  have h2 := hclaim _ h
  exact Option.noConfusion h2.1

/-- Claim C6 amended: on a successful sale `register_sale` decrements the
selected row's stock by exactly 1 in the snapshot it leaves behind, but the
method mutates the caller's snapshot and persists both tables itself: the
snapshot visible to the caller afterwards is the decremented one, the method
writes that same snapshot to the Inventory table, and writes the Sales table
extended by the new sale record. -/
theorem registerSale_success_mutates_and_persists :
    ∀ (today : String) (salesRead : Option (List SaleRow)) (inv : List InvRow)
      (i : ℕ) (row : InvRow) (p : ℚ) (c : String) (r : ℚ),
      inv[i]? = some row → 1 ≤ row.stock →
      ∃ res : RegisterSaleResult,
        register_sale today salesRead inv i p c r = some res ∧
        res.ok = true ∧
        res.inventory = inv.set i { row with stock := row.stock - 1 } ∧
        res.inventoryWrite = some res.inventory ∧
        res.salesWrite = some (salesRead.getD [] ++
          [⟨today, row.brand ++ " " ++ row.model, 1, p, c,
            row.purchasePrice * r, r⟩]) := by
  intro today salesRead inv i row p c r hrow hstock
  exact ⟨_, register_sale_of_stock today salesRead inv i row p c r hrow
    (not_lt.mpr hstock), rfl, rfl, rfl, rfl⟩

/-- Witness for the amended C6 at a concrete input. -/
theorem registerSale_success_mutates_and_persists_witness :
    ∃ res : RegisterSaleResult,
      register_sale "2026-01-03" (some []) [demoItem] 0 1900 "€" 1 =
        some res ∧
      res.ok = true ∧
      res.inventory = [demoItem].set 0 { demoItem with stock := demoItem.stock - 1 } ∧
      res.inventoryWrite = some res.inventory ∧
      res.salesWrite = some ((some ([] : List SaleRow)).getD [] ++
        [⟨"2026-01-03", demoItem.brand ++ " " ++ demoItem.model, 1, 1900, "€",
          demoItem.purchasePrice * 1, 1⟩]) :=
  registerSale_success_mutates_and_persists "2026-01-03" (some []) [demoItem] 0
    demoItem 1900 "€" 1 rfl (by norm_num [demoItem])

/-- Counterexample to claim C7 as stated: with the read of the Sales
(resp. Expenses) table failing, `register_sale` still reports success and
writes a one-row Sales table, and `log_expense` still returns True and
writes a one-row Expenses table — the read failure is not propagated to the
caller. -/
theorem failedRead_not_propagated_counterexample :
    (∃ res : RegisterSaleResult,
      register_sale "2026-01-04" none [demoItemDollar] 0 40 "$" 1 =
        some res ∧ res.ok = true ∧
      res.salesWrite = some [⟨"2026-01-04", "TWSBI Eco", 1, 40, "$", 20, 1⟩]) ∧
    log_expense "2026-01-04" none "Rent" 20 "$" "" =
      (true, [⟨"2026-01-04", "Rent", 20, "$", ""⟩]) := by
  constructor
  · refine ⟨_, register_sale_of_stock "2026-01-04" none [demoItemDollar] 0
      demoItemDollar 40 "$" 1 rfl (by norm_num [demoItemDollar]), rfl, ?_⟩
    norm_num [demoItemDollar]
    rfl
  · rfl

/-- Claim C7 amended: when the read of the Sales (resp. Expenses) table
fails, the bare except substitutes an empty table and the operation
continues instead of propagating the failure: `register_sale` succeeds
(given stock) and writes a Sales table holding only the new sale, and
`log_expense` returns True and writes an Expenses table holding only the new
expense. -/
theorem failedRead_replaced_by_empty_table :
    ∀ (today : String) (inv : List InvRow) (i : ℕ) (row : InvRow) (p : ℚ)
      (c : String) (r : ℚ) (cat : String) (amt : ℚ) (cur nts : String),
      inv[i]? = some row → 1 ≤ row.stock →
      (∃ res : RegisterSaleResult,
        register_sale today none inv i p c r = some res ∧ res.ok = true ∧
        res.salesWrite = some [⟨today, row.brand ++ " " ++ row.model, 1, p, c,
          row.purchasePrice * r, r⟩]) ∧
      log_expense today none cat amt cur nts =
        (true, [⟨today, cat, amt, cur, nts⟩]) := by
  intro today inv i row p c r cat amt cur nts hrow hstock
  exact ⟨⟨_, register_sale_of_stock today none inv i row p c r hrow
    (not_lt.mpr hstock), rfl, rfl⟩, rfl⟩

/-- Witness for the amended C7 at a concrete input. -/
theorem failedRead_replaced_by_empty_table_witness :
    (∃ res : RegisterSaleResult,
      register_sale "2026-01-05" none [demoItemDollar] 0 45 "$" 1 =
        some res ∧ res.ok = true ∧
      res.salesWrite = some [⟨"2026-01-05",
        demoItemDollar.brand ++ " " ++ demoItemDollar.model, 1, 45, "$",
        demoItemDollar.purchasePrice * 1, 1⟩]) ∧
    log_expense "2026-01-05" none "Marketing" 30 "€" "ads" =
      (true, [⟨"2026-01-05", "Marketing", 30, "€", "ads"⟩]) :=
  failedRead_replaced_by_empty_table "2026-01-05" [demoItemDollar] 0
    demoItemDollar 45 "$" 1 "Marketing" 30 "€" "ads" rfl
    (by norm_num [demoItemDollar])

/-- Counterexample to claim C8 as stated: the colour field of
`colorOnlyItem` contains the query "blue" (case-insensitively), yet the
search filter drops the row — the source matches only the Brand and Model
columns, not colour, supplier, details or date. -/
theorem filterItems_ignores_color_counterexample :
    strContainsSub (lowerStr colorOnlyItem.color) (lowerStr "Blue") = true ∧
    filterItems [colorOnlyItem] "Blue" = [] := by
  exact ⟨by decide, by decide⟩

/-- Claim C8 amended: `filterItems` performs a case-insensitive substring
match against the brand and model fields only, returning an
order-preserving subsequence; with an empty query it returns the original
sequence unchanged. -/
theorem filterItems_matches_brand_model_only :
    ∀ (inv : List InvRow) (q : String),
      (filterItems inv q).Sublist inv ∧
      (q = "" → filterItems inv q = inv) ∧
      (q ≠ "" → filterItems inv q =
        inv.filter fun row =>
          strContainsSub (lowerStr row.brand) (lowerStr q) ||
          strContainsSub (lowerStr row.model) (lowerStr q)) := by
  intro inv q
  refine ⟨?_, ?_, ?_⟩
  · by_cases hq : q = ""
    · simp [filterItems, hq]
    · simp only [filterItems, hq, if_false, reduceIte]
      exact List.filter_sublist inv
  · intro hq
    simp [filterItems, hq]
  · intro hq
    simp [filterItems, hq]

/-- Witness for the amended C8: the empty query keeps the inventory. -/
theorem filterItems_matches_brand_model_only_witness :
    filterItems [colorOnlyItem] "" = [colorOnlyItem] :=
  (filterItems_matches_brand_model_only [colorOnlyItem] "").2.1 rfl

/-- Claim C9: the volume counters keep exactly the orders whose parsed date
lies in the inclusive window (at least `today - 7`, resp. `today - 30`); an
order dated exactly 7 days ago is in the 7-day window, one dated 8 days ago
is out of it but in the 30-day window, an unparseable date is excluded from
both windows, and the pending counter counts the orders with status
"In Progress". -/
theorem nib_order_volume_counters :
    ∀ (parseDate : String → Option ℤ) (today : ℤ) (nibs : List NibRow)
      (n : NibRow),
      (n ∈ orders_7d parseDate today nibs ↔
        n ∈ nibs ∧ ∃ d, parseDate n.date = some d ∧ today - 7 ≤ d) ∧
      (n ∈ orders_30d parseDate today nibs ↔
        n ∈ nibs ∧ ∃ d, parseDate n.date = some d ∧ today - 30 ≤ d) ∧
      (n ∈ nibs → parseDate n.date = some (today - 7) →
        n ∈ orders_7d parseDate today nibs) ∧
      (parseDate n.date = some (today - 8) →
        n ∉ orders_7d parseDate today nibs ∧
        (n ∈ nibs → n ∈ orders_30d parseDate today nibs)) ∧
      (parseDate n.date = none →
        n ∉ orders_7d parseDate today nibs ∧
        n ∉ orders_30d parseDate today nibs) ∧
      pending_queue_count nibs =
        nibs.countP fun m => m.status == "In Progress" := by
  intro parseDate today nibs n
  have h7 : n ∈ orders_7d parseDate today nibs ↔
      n ∈ nibs ∧ ∃ d, parseDate n.date = some d ∧ today - 7 ≤ d := by
    unfold orders_7d
    rw [List.mem_filter]
    cases hd : parseDate n.date with
    | none => simp [hd]
    | some d => simp [hd]
  have h30 : n ∈ orders_30d parseDate today nibs ↔
      n ∈ nibs ∧ ∃ d, parseDate n.date = some d ∧ today - 30 ≤ d := by
    unfold orders_30d
    rw [List.mem_filter]
    cases hd : parseDate n.date with
    | none => simp [hd]
    | some d => simp [hd]
  refine ⟨h7, h30, ?_, ?_, ?_, ?_⟩
  · intro hmem hd
    exact h7.mpr ⟨hmem, today - 7, hd, le_refl _⟩
  · intro hd
    constructor
    · intro hn
      obtain ⟨-, d, hd', hle⟩ := h7.mp hn
      rw [hd] at hd'
      obtain rfl := Option.some_inj.mp hd'.symm
      omega
    · intro hmem
      exact h30.mpr ⟨hmem, today - 8, hd, by omega⟩
  · intro hd
    constructor
    · intro hn
      obtain ⟨-, d, hd', -⟩ := h7.mp hn
      rw [hd] at hd'
      exact Option.noConfusion hd'
    · intro hn
      obtain ⟨-, d, hd', -⟩ := h30.mp hn
      rw [hd] at hd'
      exact Option.noConfusion hd'
  · exact (List.countP_eq_length_filter _ _).symm

/-- Witness for C9: with today = 7, the order dated exactly 7 days earlier
is counted in the 7-day window. -/
theorem nib_order_volume_counters_witness :
    demoNib ∈ orders_7d demoParse 7 [demoNib] :=
  (nib_order_volume_counters demoParse 7 [demoNib] demoNib).2.2.1
    (by simp) (by decide)

/-- Claim C10: the `DbManager` class defines no `add_inventory_item` method,
so every submission of the add-item form raises `AttributeError` and no
inventory item is ever added through this interface. -/
theorem add_item_always_raises :
    dbManagerMethods.contains "add_inventory_item" = false ∧
    ∀ (inv : List InvRow) (item : InvRow),
      add_inv_form_submit inv item =
        Except.error (PyError.attributeError "add_inventory_item") :=
  ⟨by decide, fun _ _ => rfl⟩

/-! ## Helper lemmas for the financial aggregation -/

/-- Summing a mapped filter equals summing an if-then-else over the whole
list. -/
lemma sum_map_filter_eq_sum_ite {α : Type} (l : List α) (p : α → Bool)
    (f : α → ℚ) :
    ((l.filter p).map f).sum = (l.map fun a => if p a then f a else 0).sum := by
  induction l with
  | nil => rfl
  | cons x xs ih =>
    by_cases h : p x
    · simp [List.filter_cons, h, ih]
    · simp [List.filter_cons, h, ih]

/-- Specialisation to the boolean equality tests the source uses on the
currency column. -/
lemma sum_map_filter_beq {α : Type} (l : List α) (g : α → String) (c : String)
    (f : α → ℚ) :
    ((l.filter fun a => g a == c).map f).sum =
      (l.map fun a => if g a = c then f a else 0).sum := by
  rw [sum_map_filter_eq_sum_ite]
  apply congrArg List.sum
  apply List.map_congr_left
  intro a _
  by_cases h : g a = c
  · simp [h]
  · simp [h]

/-- A Finset sum of list sums is the list sum of the pointwise Finset
sums. -/
lemma finset_sum_list_sum {α β : Type} [DecidableEq β] (S : Finset β)
    (l : List α) (f : β → α → ℚ) :
    (∑ c ∈ S, (l.map (f c)).sum) = (l.map fun a => ∑ c ∈ S, f c a).sum := by
  induction l with
  | nil => simp
  | cons x xs ih => simp [Finset.sum_add_distrib, ih]

/-- Membership in the currency set the finance tab iterates over. -/
lemma mem_all_currencies_iff (sales_df : List SaleRow)
    (expense_df : List ExpRow) (nib_orders : List NibRow) (c : String) :
    c ∈ all_currencies sales_df expense_df nib_orders ↔
      ¬ c = "" ∧ (c ∈ sales_df.map SaleRow.currency ∨
        c ∈ expense_df.map ExpRow.currency ∨
        c ∈ (completed_nibs nib_orders).map NibRow.currency) := by
  unfold all_currencies
  rw [Finset.mem_erase, Finset.mem_union, Finset.mem_union,
    List.mem_toFinset, List.mem_toFinset, List.mem_toFinset, or_assoc, ne_eq]

/-- Claim C3: per currency, revenue is the sum of sale selling prices plus
the prices of Completed service orders of that currency (non-completed
orders contribute nothing), cogs the sum of sale cost prices, operating
expense the sum of expense amounts, and net profit is revenue minus cogs
minus operating expense; concretely, a 100 $ sale costing 60 with a 20 $
expense yields revenue 100, cogs 60, operating expense 20, net profit 20
for the dollar bucket. -/
theorem aggregate_by_currency_formulas :
    (∀ (sales_df : List SaleRow) (expense_df : List ExpRow)
        (nib_orders : List NibRow) (c : String),
      (currency_summary sales_df expense_df nib_orders c).revenue =
        (sales_df.map fun s =>
          if s.currency = c then s.sellingPrice else 0).sum +
        (nib_orders.map fun n =>
          if n.status = "Completed" ∧ n.currency = c then n.price else 0).sum ∧
      (currency_summary sales_df expense_df nib_orders c).cogs =
        (sales_df.map fun s => if s.currency = c then s.costPrice else 0).sum ∧
      (currency_summary sales_df expense_df nib_orders c).operatingExpense =
        (expense_df.map fun e => if e.currency = c then e.amount else 0).sum ∧
      (currency_summary sales_df expense_df nib_orders c).netProfit =
        (currency_summary sales_df expense_df nib_orders c).revenue -
          (currency_summary sales_df expense_df nib_orders c).cogs -
          (currency_summary sales_df expense_df nib_orders c).operatingExpense) ∧
    (currency_summary [demoSale] [demoExp] [] "$" = ⟨100, 60, 20, 20⟩ ∧
      all_currencies [demoSale] [demoExp] [] = {"$"}) := by
  constructor
  · intro sales_df expense_df nib_orders c
    refine ⟨?_, ?_, ?_, rfl⟩
    · show ((sales_df.filter fun s => s.currency == c).map
          SaleRow.sellingPrice).sum +
        (((completed_nibs nib_orders).filter fun n => n.currency == c).map
          NibRow.price).sum = _
      rw [sum_map_filter_beq]
      congr 1
      unfold completed_nibs
      rw [List.filter_filter, sum_map_filter_eq_sum_ite]
      apply congrArg List.sum
      apply List.map_congr_left
      intro n _
      by_cases h1 : n.status = "Completed"
      · by_cases h2 : n.currency = c
        · simp [h1, h2]
        · simp [h1, h2]
      · simp [h1]
    · exact sum_map_filter_beq sales_df SaleRow.currency c SaleRow.costPrice
    · exact sum_map_filter_beq expense_df ExpRow.currency c ExpRow.amount
  · constructor
    · show CurrencySummary.mk _ _ _ _ = _
      norm_num [completed_nibs, demoSale, demoExp]
    · decide

/-- Claim C4: the currency grouping is an exhaustive, disjoint partition:
summing revenue over all returned currencies equals the grand-total revenue
over the input records with a non-empty currency tag; every currency in the
result occurs in some input record, and the empty tag is excluded. -/
theorem aggregate_partition_exhaustive :
    ∀ (sales_df : List SaleRow) (expense_df : List ExpRow)
      (nib_orders : List NibRow),
      (∑ c ∈ all_currencies sales_df expense_df nib_orders,
          (currency_summary sales_df expense_df nib_orders c).revenue) =
        ((sales_df.filter fun s => s.currency != "").map
          SaleRow.sellingPrice).sum +
        (((completed_nibs nib_orders).filter fun n => n.currency != "").map
          NibRow.price).sum ∧
      "" ∉ all_currencies sales_df expense_df nib_orders ∧
      (∀ c ∈ all_currencies sales_df expense_df nib_orders,
        (∃ s ∈ sales_df, s.currency = c) ∨
        (∃ e ∈ expense_df, e.currency = c) ∨
        (∃ n ∈ nib_orders, n.currency = c)) := by
  intro sales_df expense_df nib_orders
  refine ⟨?_, ?_, ?_⟩
  · have hrev : ∀ c ∈ all_currencies sales_df expense_df nib_orders,
        (currency_summary sales_df expense_df nib_orders c).revenue =
          (sales_df.map fun s =>
            if s.currency = c then s.sellingPrice else 0).sum +
          ((completed_nibs nib_orders).map fun n =>
            if n.currency = c then n.price else 0).sum := by
      intro c _
      show ((sales_df.filter fun s => s.currency == c).map
          SaleRow.sellingPrice).sum +
        (((completed_nibs nib_orders).filter fun n => n.currency == c).map
          NibRow.price).sum = _
      rw [sum_map_filter_beq, sum_map_filter_beq]
    rw [Finset.sum_congr rfl hrev, Finset.sum_add_distrib,
      finset_sum_list_sum, finset_sum_list_sum,
      sum_map_filter_eq_sum_ite, sum_map_filter_eq_sum_ite]
    congr 1
    · apply congrArg List.sum
      apply List.map_congr_left
      intro s hs
      rw [Finset.sum_ite_eq]
      have hmem : s.currency ∈ all_currencies sales_df expense_df nib_orders ↔
          ¬ s.currency = "" := by
        rw [mem_all_currencies_iff]
        exact ⟨fun h => h.1,
          fun h => ⟨h, Or.inl (List.mem_map_of_mem _ hs)⟩⟩
      by_cases h : s.currency = ""
      · rw [if_neg (fun hin => (hmem.mp hin) h), if_neg (by simp [h])]
      · rw [if_pos (hmem.mpr h), if_pos (by simpa using h)]
    · apply congrArg List.sum
      apply List.map_congr_left
      intro n hn
      rw [Finset.sum_ite_eq]
      have hmem : n.currency ∈ all_currencies sales_df expense_df nib_orders ↔
          ¬ n.currency = "" := by
        rw [mem_all_currencies_iff]
        exact ⟨fun h => h.1,
          fun h => ⟨h, Or.inr (Or.inr (List.mem_map_of_mem _ hn))⟩⟩
      by_cases h : n.currency = ""
      · rw [if_neg (fun hin => (hmem.mp hin) h), if_neg (by simp [h])]
      · rw [if_pos (hmem.mpr h), if_pos (by simpa using h)]
  · unfold all_currencies
    exact Finset.not_mem_erase _ _
  · intro c hc
    rcases (mem_all_currencies_iff sales_df expense_df nib_orders c).mp hc
      with ⟨-, h | h | h⟩
    · obtain ⟨s, hs, rfl⟩ := List.mem_map.mp h
      exact Or.inl ⟨s, hs, rfl⟩
    · obtain ⟨e, he, rfl⟩ := List.mem_map.mp h
      exact Or.inr (Or.inl ⟨e, he, rfl⟩)
    · obtain ⟨n, hn, rfl⟩ := List.mem_map.mp h
      exact Or.inr (Or.inr ⟨n, List.mem_of_mem_filter hn, rfl⟩)

/-- Witness for C4 at a concrete input: the dollar bucket produced by a
one-sale input traces back to that sale record. -/
theorem aggregate_partition_exhaustive_witness :
    (∃ s ∈ [demoSale], s.currency = "$") ∨
    (∃ e ∈ ([] : List ExpRow), e.currency = "$") ∨
    (∃ n ∈ ([] : List NibRow), n.currency = "$") :=
  (aggregate_partition_exhaustive [demoSale] [] []).2.2 "$" (by decide)
